import Mathlib

/-!
Shallow embedding of the reconciliation core of the
kubernetes-iteration-toolkit repository, together with theorems settling
the frozen claims about it.

The embedding covers:
- the control-plane dependency composer
  (operator/pkg/controllers/controlplane/controlplane.go);
- the directory upload iterator, the cluster Config Create and Delete
  methods and the ensureBucket primitive (the cluster package file);
- GetClusterEndpoint (operator/pkg/controllers/master/endpoint.go);
- SecurityGroup.Create (pkg/resource/securitygroup.go).

External collaborators (the object store, the cloud API, os.Open, the
filesystem walk) are modelled as explicit outcome parameters: a function or
value stating how each external call would respond.  The Go code is then a
deterministic function of those outcomes, which the definitions below
follow statement by statement.
-/

/-- Go error values as the embedded code builds them: a leaf message, the
named sentinel errors.WaitingForSubResources from the operator errors
package, or a wrapped error as produced by fmt.Errorf with a %w verb. -/
inductive GoError where
  | waitingForSubResources : GoError
  | msg : String → GoError
  | wrap : String → GoError → GoError
deriving DecidableEq, Repr

/-- A sub-controller stage as the control-plane composer sees it: its name
and the outcome (none = success) each of its Reconcile and Finalize calls
would report for the object at hand. -/
structure Stage where
  name : String
  reconcileErr : Option GoError
  finalizeErr : Option GoError
deriving DecidableEq, Repr

/-- The controlPlane struct of operator/pkg/controllers/controlplane:
holds the etcd, master and addons sub-controllers. -/
structure controlPlane where
  etcdController : Stage
  masterController : Stage
  addonsController : Stage
deriving DecidableEq, Repr

/-- The named results the composer returns (results.Created,
results.Terminated, results.Failed from the results package); noResult
stands for the nil result pointer returned on the Reconcile error path. -/
inductive RunResult where
  | created
  | terminated
  | failed
  | noResult
deriving DecidableEq, Repr

/-- Outcome of one composer call: the names of the stages whose method was
invoked, in call order, plus the returned result and error. -/
structure ComposerOut where
  trace : List String
  res : RunResult
  err : Option GoError
deriving DecidableEq, Repr

/-- The loop body of controlPlane.Reconcile (controlplane.go:60-71): walk
the stage list in order, invoking each Reconcile; the first error aborts
with a nil result and the error wrapped as
"control plane reconciling, %w"; if all succeed return results.Created. -/
def reconcileLoop : List Stage → ComposerOut
  | [] => ⟨[], RunResult.created, none⟩
  | s :: rest =>
    match s.reconcileErr with
    | some e => ⟨[s.name], RunResult.noResult, some (GoError.wrap "control plane reconciling, " e)⟩
    | none =>
      let o := reconcileLoop rest
      ⟨s.name :: o.trace, o.res, o.err⟩

/-- controlPlane.Reconcile (controlplane.go:60-71): the loop over the list
[etcdController, masterController, addonsController], in that order. -/
def controlPlane.Reconcile (c : controlPlane) : ComposerOut :=
  reconcileLoop [c.etcdController, c.masterController, c.addonsController]

/-- controlPlane.Finalize exactly as written at controlplane.go:73-78: it
invokes only masterController.Finalize; on error it returns results.Failed
together with the error, otherwise results.Terminated. -/
def controlPlane.Finalize (c : controlPlane) : ComposerOut :=
  match c.masterController.finalizeErr with
  | some e => ⟨[c.masterController.name], RunResult.failed, some e⟩
  | none => ⟨[c.masterController.name], RunResult.terminated, none⟩

/-- A concrete composer whose three stages all succeed, used to evaluate
the Finalize call order on an explicit input. -/
def cpDemo : controlPlane :=
  ⟨⟨"etcd", none, none⟩, ⟨"master", none, none⟩, ⟨"addons", none, none⟩⟩

/-- C1, counterexample: for the composer holding the succeeding stages
[etcd, master, addons], Finalize does not invoke every stage in reverse
order: the trace is not [addons, master, etcd]; the etcd and the addons
Finalize are never invoked at all, only the master one is. -/
theorem controlPlane_Finalize_not_reverse :
    (controlPlane.Finalize cpDemo).trace ≠ ["addons", "master", "etcd"] ∧
    "etcd" ∉ (controlPlane.Finalize cpDemo).trace ∧
    "addons" ∉ (controlPlane.Finalize cpDemo).trace ∧
    (controlPlane.Finalize cpDemo).trace = ["master"] := by
  decide

/-- C1 (amended): controlPlane.Finalize invokes only the master stage
Finalize — the etcd and addons stages are never finalized by it; an error
from the master Finalize is surfaced to the caller together with
results.Failed, and on success it returns results.Terminated with no
error. -/
theorem controlPlane_Finalize_master_only (c : controlPlane) :
    (controlPlane.Finalize c).trace = [c.masterController.name] ∧
    (controlPlane.Finalize c).err = c.masterController.finalizeErr ∧
    (controlPlane.Finalize c).res =
      (if c.masterController.finalizeErr = none then RunResult.terminated
       else RunResult.failed) := by
  cases h : c.masterController.finalizeErr <;>
    simp [controlPlane.Finalize, h]

/-- C2: controlPlane.Reconcile calls the stage Reconcile methods in the
forward order etcd, master, addons; at the first stage error it returns
immediately with that error wrapped as "control plane reconciling, %w" and
a nil result, and the stages after the failing one are absent from the
invocation trace; when all stages succeed the trace is the full forward
list and the call returns results.Created with no error. -/
theorem controlPlane_Reconcile_forward_short_circuit (c : controlPlane) :
    controlPlane.Reconcile c =
      (match c.etcdController.reconcileErr with
       | some e =>
         ⟨[c.etcdController.name], RunResult.noResult,
          some (GoError.wrap "control plane reconciling, " e)⟩
       | none =>
         match c.masterController.reconcileErr with
         | some e =>
           ⟨[c.etcdController.name, c.masterController.name], RunResult.noResult,
            some (GoError.wrap "control plane reconciling, " e)⟩
         | none =>
           match c.addonsController.reconcileErr with
           | some e =>
             ⟨[c.etcdController.name, c.masterController.name, c.addonsController.name],
              RunResult.noResult, some (GoError.wrap "control plane reconciling, " e)⟩
           | none =>
             ⟨[c.etcdController.name, c.masterController.name, c.addonsController.name],
              RunResult.created, none⟩) := by
  cases he : c.etcdController.reconcileErr <;>
    cases hm : c.masterController.reconcileErr <;>
      cases ha : c.addonsController.reconcileErr <;>
        simp [controlPlane.Reconcile, reconcileLoop, he, hm, ha]

/-- The DirectoryIterator of the cluster Config file: the remaining walked
file paths, the destination bucket, the current unit (next.path together
with next.f, the open handle — a handle is identified here by the path it
was opened from, none standing for the nil file pointer) and the last
os.Open outcome stored in err. -/
structure DirectoryIterator where
  filePaths : List String
  bucket : String
  nextPath : String
  nextF : Option String
  err : Option GoError
deriving DecidableEq, Repr

/-- NewDirectoryIterator: the constructor walks the directory once and
keeps the ordered list of non-directory file paths; the walk itself
(filepath.Walk) is an external filesystem call, so its produced path list
is taken as the parameter.  The current unit starts empty (zero value) and
no error is recorded. -/
def NewDirectoryIterator (bucket : String) (paths : List String) : DirectoryIterator :=
  ⟨paths, bucket, "", none, none⟩

/-- DirectoryIterator.Next, statement by statement: with no remaining path
it clears next.f and returns false; otherwise it calls os.Open on the head
path (openRes gives the outcome of that external call: none = success),
stores the open handle in next.f (nil on failure), unconditionally stores
the open outcome in err, stores the head in next.path, drops the head from
filePaths, and returns true exactly when Err() is nil. -/
def DirectoryIterator.Next (openRes : String → Option GoError) (d : DirectoryIterator) :
    DirectoryIterator × Bool :=
  match d.filePaths with
  | [] => ({ d with nextF := none }, false)
  | p :: rest =>
    let e := openRes p
    ({ d with nextF := if e.isNone then some p else none,
              err := e, nextPath := p, filePaths := rest },
     e.isNone)

/-- DirectoryIterator.Err returns the recorded error field. -/
def DirectoryIterator.Err (d : DirectoryIterator) : Option GoError := d.err

/-- A batch upload unit as DirectoryIterator.UploadObject builds it: the
destination bucket and key, the readable body (the open handle) and the
After callback; the after field records which open handle the callback
closes (it is the Close method value of next.f). -/
structure BatchUploadObject where
  bucket : String
  key : String
  body : Option String
  after : Option String
deriving DecidableEq, Repr

/-- DirectoryIterator.UploadObject: the unit for the current file, keyed
by next.path, with next.f as body and the Close of that same handle as
the After callback. -/
def DirectoryIterator.UploadObject (d : DirectoryIterator) : BatchUploadObject :=
  ⟨d.bucket, d.nextPath, d.nextF, d.nextF⟩

/-- The outcome of a whole upload run: the units handed to the uploader in
order (the after field of each is the one Close callback the uploader
invokes for it, exactly once, after the upload attempt of that unit), the
final iterator state, and the error the driver returns (iter.Err()). -/
structure UploadRun where
  units : List BatchUploadObject
  finalIter : DirectoryIterator
  err : Option GoError
deriving DecidableEq, Repr

/-- Each Next call that returns true has consumed the head of a non-empty
path list, so the remaining list shrinks. -/
theorem DirectoryIterator.next_true_shrinks (openRes : String → Option GoError)
    (d : DirectoryIterator) (h : (DirectoryIterator.Next openRes d).2 = true) :
    (DirectoryIterator.Next openRes d).1.filePaths.length < d.filePaths.length := by
  cases hd : d.filePaths with
  | nil => rw [DirectoryIterator.Next, hd] at h; simp at h
  | cons p rest => rw [DirectoryIterator.Next, hd]; simp

/-- Modelled from the spec: the batched upload driver
(s3manager.Uploader.UploadWithIterator of the AWS SDK, external to this
repository) repeatedly calls Next; while it returns true the driver takes
UploadObject, attempts that upload and invokes the After callback of the
unit exactly once; when Next returns false the loop stops and the driver
returns iter.Err().  The run records the units in order, the final
iterator state and that returned error. -/
def UploadWithIterator (openRes : String → Option GoError) (d : DirectoryIterator) :
    UploadRun :=
  if h : (DirectoryIterator.Next openRes d).2 then
    let out := UploadWithIterator openRes (DirectoryIterator.Next openRes d).1
    ⟨DirectoryIterator.UploadObject (DirectoryIterator.Next openRes d).1 :: out.units,
     out.finalIter, out.err⟩
  else
    ⟨[], (DirectoryIterator.Next openRes d).1, (DirectoryIterator.Next openRes d).1.err⟩
termination_by d.filePaths.length
decreasing_by exact DirectoryIterator.next_true_shrinks openRes d h

/-- The units a run yields, as a function of the open outcomes and the
path list: one unit per successfully opened path, stopping at the first
path whose open fails. -/
def runUnits (openRes : String → Option GoError) (bucket : String) : List String → List BatchUploadObject
  | [] => []
  | p :: rest =>
    match openRes p with
    | none => ⟨bucket, p, some p, some p⟩ :: runUnits openRes bucket rest
    | some _ => []

/-- The paths a run leaves unconsumed: nothing when every open succeeds,
otherwise the paths strictly after the first failing one. -/
def runRemaining (openRes : String → Option GoError) : List String → List String
  | [] => []
  | p :: rest =>
    match openRes p with
    | none => runRemaining openRes rest
    | some _ => rest

/-- The error a run ends with: the first open failure if any; otherwise
none when at least one path was processed, and the initial err field when
the list was empty from the start. -/
def runErr (openRes : String → Option GoError) (init : Option GoError) : List String → Option GoError
  | [] => init
  | p :: rest =>
    match openRes p with
    | none => runErr openRes none rest
    | some e => some e

/-- Characterization of a whole upload run in terms of the walked path
list: the units are those of runUnits, the remaining paths those of
runRemaining, the returned error that of runErr. -/
theorem UploadWithIterator_char (openRes : String → Option GoError) :
    ∀ (xs : List String) (d : DirectoryIterator), d.filePaths = xs →
      (UploadWithIterator openRes d).units = runUnits openRes d.bucket xs ∧
      (UploadWithIterator openRes d).finalIter.filePaths = runRemaining openRes xs ∧
      (UploadWithIterator openRes d).err = runErr openRes d.err xs := by
  intro xs
  induction xs with
  | nil =>
    intro d hd
    rw [UploadWithIterator]
    simp [DirectoryIterator.Next, hd, runUnits, runRemaining, runErr]
  | cons p rest ih =>
    intro d hd
    cases hopen : openRes p with
    | some ge =>
      have hnext : DirectoryIterator.Next openRes d =
          ({ d with nextF := none, err := some ge, nextPath := p, filePaths := rest },
           false) := by
        simp [DirectoryIterator.Next, hd, hopen]
      rw [UploadWithIterator, hnext]
      simp [runUnits, runRemaining, runErr, hopen]
    | none =>
      have hnext : DirectoryIterator.Next openRes d =
          ({ d with nextF := some p, err := none, nextPath := p, filePaths := rest },
           true) := by
        simp [DirectoryIterator.Next, hd, hopen]
      obtain ⟨h1, h2, h3⟩ :=
        ih { d with nextF := some p, err := none, nextPath := p, filePaths := rest } rfl
      rw [UploadWithIterator, hnext]
      simp only [↓reduceDIte]
      simp [DirectoryIterator.UploadObject, h1, h2, h3, runUnits, runRemaining, runErr, hopen]

/-- When every path before p opens fine and opening p fails with e, the
run error is e, whatever error was recorded before the run. -/
theorem runErr_first_failure (openRes : String → Option GoError) (e : GoError)
    (p : String) (ys : List String) :
    ∀ (xs : List String), (∀ x ∈ xs, openRes x = none) → openRes p = some e →
      ∀ init, runErr openRes init (xs ++ p :: ys) = some e := by
  intro xs
  induction xs with
  | nil => intro _ hp init; simp [runErr, hp]
  | cons a as ih =>
    intro hxs hp init
    have ha : openRes a = none := hxs a (List.mem_cons_self a as)
    simp only [List.cons_append, runErr, ha]
    exact ih (fun x hx => hxs x (List.mem_cons_of_mem a hx)) hp none

/-- When every path before p opens fine and opening p fails, the units of
the run are exactly one per path before p, in order. -/
theorem runUnits_first_failure (openRes : String → Option GoError) (e : GoError)
    (b p : String) (ys : List String) :
    ∀ (xs : List String), (∀ x ∈ xs, openRes x = none) → openRes p = some e →
      runUnits openRes b (xs ++ p :: ys) =
        xs.map (fun x => BatchUploadObject.mk b x (some x) (some x)) := by
  intro xs
  induction xs with
  | nil => intro _ hp; simp [runUnits, hp]
  | cons a as ih =>
    intro hxs hp
    have ha : openRes a = none := hxs a (List.mem_cons_self a as)
    simp only [List.cons_append, runUnits, ha, List.map_cons]
    exact congrArg _ (ih (fun x hx => hxs x (List.mem_cons_of_mem a hx)) hp)

/-- When every path before p opens fine and opening p fails, the run
leaves exactly the paths after p unconsumed. -/
theorem runRemaining_first_failure (openRes : String → Option GoError) (e : GoError)
    (p : String) (ys : List String) :
    ∀ (xs : List String), (∀ x ∈ xs, openRes x = none) → openRes p = some e →
      runRemaining openRes (xs ++ p :: ys) = ys := by
  intro xs
  induction xs with
  | nil => intro _ hp; simp [runRemaining, hp]
  | cons a as ih =>
    intro hxs hp
    have ha : openRes a = none := hxs a (List.mem_cons_self a as)
    simp only [List.cons_append, runRemaining, ha]
    exact ih (fun x hx => hxs x (List.mem_cons_of_mem a hx)) hp

/-- A run yields at most one unit per walked path. -/
theorem runUnits_length_le (openRes : String → Option GoError) (b : String) :
    ∀ xs : List String, (runUnits openRes b xs).length ≤ xs.length := by
  intro xs
  induction xs with
  | nil => simp [runUnits]
  | cons p rest ih =>
    cases hopen : openRes p with
    | none => simpa [runUnits, hopen] using ih
    | some ge => simp [runUnits, hopen]

/-- The keys of the units of a run form a sublist of the walked paths. -/
theorem runUnits_keys_sublist (openRes : String → Option GoError) (b : String) :
    ∀ xs : List String,
      ((runUnits openRes b xs).map (fun u => u.key)).Sublist xs := by
  intro xs
  induction xs with
  | nil => simp [runUnits]
  | cons p rest ih =>
    cases hopen : openRes p with
    | none =>
      simpa [runUnits, hopen] using List.Sublist.cons₂ p ih
    | some ge => simp [runUnits, hopen]

/-- C3: in an upload run over walked paths xs ++ p :: ys where every path
in xs opens fine and opening p fails with e, the run surfaces e, the unit
keys are exactly xs (so the paths after p are never attempted: they stay,
untouched, in the final remaining list), Next answers false on an
exhausted list, and the very call that records the open failure of p
already answers false, so the driver opens nothing further. -/
theorem DirectoryIterator_fail_fast (openRes : String → Option GoError) (e : GoError)
    (xs ys : List String) (p : String) (d : DirectoryIterator)
    (hd : d.filePaths = xs ++ p :: ys)
    (hxs : ∀ x ∈ xs, openRes x = none) (hp : openRes p = some e) :
    (UploadWithIterator openRes d).err = some e ∧
    (UploadWithIterator openRes d).units.map (fun u => u.key) = xs ∧
    (UploadWithIterator openRes d).finalIter.filePaths = ys ∧
    (DirectoryIterator.Next openRes { d with filePaths := [] }).2 = false ∧
    (DirectoryIterator.Next openRes { d with filePaths := p :: ys }).2 = false := by
  obtain ⟨h1, h2, h3⟩ := UploadWithIterator_char openRes (xs ++ p :: ys) d hd
  refine ⟨?_, ?_, ?_, ?_, ?_⟩
  · rw [h3]; exact runErr_first_failure openRes e p ys xs hxs hp d.err
  · rw [h1, runUnits_first_failure openRes e d.bucket p ys xs hxs hp]
    simp [List.map_map, Function.comp_def]
  · rw [h2]; exact runRemaining_first_failure openRes e p ys xs hxs hp
  · simp [DirectoryIterator.Next]
  · simp [DirectoryIterator.Next, hp]

/-- The open outcomes of the five-file example: the third file cannot be
opened, the others can. -/
def openDemo : String → Option GoError :=
  fun s => if s = "f3" then some (GoError.msg "open failed") else none

/-- The iterator over the five walked files of the example. -/
def dDemo : DirectoryIterator :=
  NewDirectoryIterator "bkt" ["f1", "f2", "f3", "f4", "f5"]

/-- C3 witness: of five walked files whose third cannot be opened, the run
uploads exactly f1 and f2, surfaces the open error, leaves f4 and f5
untouched, and Next answers false both on exhaustion and on the failing
open. -/
theorem DirectoryIterator_fail_fast_witness :
    (UploadWithIterator openDemo dDemo).err = some (GoError.msg "open failed") ∧
    (UploadWithIterator openDemo dDemo).units.map (fun u => u.key) = ["f1", "f2"] ∧
    (UploadWithIterator openDemo dDemo).finalIter.filePaths = ["f4", "f5"] ∧
    (DirectoryIterator.Next openDemo { dDemo with filePaths := [] }).2 = false ∧
    (DirectoryIterator.Next openDemo { dDemo with filePaths := "f3" :: ["f4", "f5"] }).2 = false :=
  DirectoryIterator_fail_fast openDemo (GoError.msg "open failed")
    ["f1", "f2"] ["f4", "f5"] "f3" dDemo rfl (by decide) (by decide)

/-- C4: the After callback of every unit is the Close of exactly the open
handle that unit carries as its body; over a run in which xs open fine and
p then fails, the Close callbacks handed to the uploader are exactly one
per successfully opened file (each invoked once, after the upload attempt
of its unit, by the driver), with no duplicate among them and none for the
file whose open failed — no handle is leaked under the mid-walk failure. -/
theorem DirectoryIterator_close_once (openRes : String → Option GoError) (e : GoError)
    (xs ys : List String) (p : String) (d : DirectoryIterator)
    (hd : d.filePaths = xs ++ p :: ys)
    (hxs : ∀ x ∈ xs, openRes x = none) (hp : openRes p = some e)
    (hnd : xs.Nodup) (hpxs : p ∉ xs) :
    (DirectoryIterator.UploadObject d).after = (DirectoryIterator.UploadObject d).body ∧
    (UploadWithIterator openRes d).units.map (fun u => u.after) = xs.map some ∧
    (UploadWithIterator openRes d).units.map (fun u => u.body) = xs.map some ∧
    ((UploadWithIterator openRes d).units.map (fun u => u.after)).Nodup ∧
    some p ∉ (UploadWithIterator openRes d).units.map (fun u => u.after) := by
  obtain ⟨h1, _, _⟩ := UploadWithIterator_char openRes (xs ++ p :: ys) d hd
  have hunits := runUnits_first_failure openRes e d.bucket p ys xs hxs hp
  have hafter : (UploadWithIterator openRes d).units.map (fun u => u.after) = xs.map some := by
    rw [h1, hunits]; simp
  refine ⟨rfl, hafter, ?_, ?_, ?_⟩
  · rw [h1, hunits]; simp
  · rw [hafter]
    exact hnd.map (fun a b hab => Option.some_injective _ hab)
  · rw [hafter]
    intro hmem
    obtain ⟨q, hq, hqe⟩ := List.mem_map.mp hmem
    exact hpxs ((Option.some_injective _ hqe) ▸ hq)

/-- C4 witness: in the five-file example the Close callbacks handed to the
uploader are exactly those of the f1 and f2 handles, once each, and none
for the failing f3. -/
theorem DirectoryIterator_close_once_witness :
    (DirectoryIterator.UploadObject dDemo).after = (DirectoryIterator.UploadObject dDemo).body ∧
    (UploadWithIterator openDemo dDemo).units.map (fun u => u.after) = ["f1", "f2"].map some ∧
    (UploadWithIterator openDemo dDemo).units.map (fun u => u.body) = ["f1", "f2"].map some ∧
    ((UploadWithIterator openDemo dDemo).units.map (fun u => u.after)).Nodup ∧
    some "f3" ∉ (UploadWithIterator openDemo dDemo).units.map (fun u => u.after) :=
  DirectoryIterator_close_once openDemo (GoError.msg "open failed")
    ["f1", "f2"] ["f4", "f5"] "f3" dDemo rfl (by decide) (by decide) (by decide) (by decide)

/-- C10: a Next call on an iterator with a non-empty remaining list drops
exactly the head, whether its open succeeds or fails, and records the head
as the current path; consequently a run yields at most one unit per walked
path, the final remaining list is the runRemaining suffix (a path whose
open failed is consumed and never retried), and over pairwise-distinct
walked paths no path is opened for upload twice. -/
theorem DirectoryIterator_Next_consumes_head (openRes : String → Option GoError)
    (d : DirectoryIterator) (p : String) (rest : List String) :
    (DirectoryIterator.Next openRes { d with filePaths := p :: rest }).1.filePaths = rest ∧
    (DirectoryIterator.Next openRes { d with filePaths := p :: rest }).1.nextPath = p ∧
    (UploadWithIterator openRes d).units.length ≤ d.filePaths.length ∧
    (UploadWithIterator openRes d).finalIter.filePaths = runRemaining openRes d.filePaths ∧
    (d.filePaths.Nodup →
      ((UploadWithIterator openRes d).units.map (fun u => u.key)).Nodup) := by
  obtain ⟨h1, h2, _⟩ := UploadWithIterator_char openRes d.filePaths d rfl
  refine ⟨by simp [DirectoryIterator.Next], by simp [DirectoryIterator.Next], ?_, h2, ?_⟩
  · rw [h1]; exact runUnits_length_le openRes d.bucket d.filePaths
  · intro hnd
    rw [h1]
    exact hnd.sublist (runUnits_keys_sublist openRes d.bucket d.filePaths)

/-- An AWS SDK error value (awserr.Error): an error code plus a message;
the Error() string starts with the code. -/
structure AwsErr where
  code : String
  message : String
deriving DecidableEq, Repr

/-- The Error() string of an awserr.Error: the code followed by the
message. -/
def AwsErr.errorString (e : AwsErr) : String := e.code ++ ": " ++ e.message

/-- The cluster status block of the Substrate: the load-balancer address
(Status.Cluster.Address, a nil-able string pointer) and the kubeconfig
location (Status.Cluster.KubeConfig). -/
structure ClusterStatus where
  address : Option String
  kubeConfig : Option String
deriving DecidableEq, Repr

/-- The Substrate status as the Config stage reads and writes it. -/
structure SubstrateStatus where
  cluster : ClusterStatus
deriving DecidableEq, Repr

/-- The Substrate object: its metadata name and its status. -/
structure Substrate where
  name : String
  status : SubstrateStatus
deriving DecidableEq, Repr

/-- Modelled from the spec: discovery.Name (substrate utils package, not
among the repository files here) derives the deterministic resource name
from the object identity; the exact derivation is not load-bearing for the
claims, so the object name itself stands for it. -/
def discoveryName (s : Substrate) : String := s.name

/-- The ClusterCertsBasePath constant of the cluster package. -/
def ClusterCertsBasePath : String := "/tmp/"

/-- Modelled from the spec: the kubeconfigFile constant naming the
generated admin kubeconfig file (declared elsewhere in the cluster
package); its exact value is not load-bearing for the claims. -/
def kubeconfigFile : String := "etc/kubernetes/admin.conf"

/-- The local path Create writes into Status.Cluster.KubeConfig:
path.Join(ClusterCertsBasePath, discovery.Name(substrate), kubeconfigFile). -/
def kubeConfigLocalPath (s : Substrate) : String :=
  ClusterCertsBasePath ++ discoveryName s ++ "/" ++ kubeconfigFile

/-- The reconcile.Result value: only the Requeue flag matters here. -/
structure ReconcileResult where
  requeue : Bool
deriving DecidableEq, Repr

/-- Config.ensureBucket: calls CreateBucket on the store (createBucketErr
is the outcome of that external call); the ErrCodeBucketAlreadyOwnedByYou
code is absorbed as success, any other error is wrapped as
"creating S3 bucket, %w" and returned. -/
def Config.ensureBucket (createBucketErr : Option AwsErr) : Option GoError :=
  match createBucketErr with
  | some e =>
    if e.code ≠ "BucketAlreadyOwnedByYou" then
      some (GoError.wrap "creating S3 bucket, " (GoError.msg e.errorString))
    else none
  | none => none

/-- The side-effecting phases of Config.Create, in source order. -/
inductive CreateStep where
  | ensureBucket
  | generateCerts
  | kubeConfigs
  | staticPodManifests
  | kubeletSystemService
  | ensureAuthenticatorConfig
  | staticPodSpecForAuthenticator
  | upload
deriving DecidableEq, Repr

/-- Outcomes of the external calls each Config.Create phase makes: none
means the phase succeeds. -/
structure CreateEnv where
  createBucketErr : Option AwsErr
  generateCertsErr : Option GoError
  kubeConfigsErr : Option GoError
  staticPodManifestsErr : Option GoError
  kubeletSystemServiceErr : Option GoError
  ensureAuthenticatorConfigErr : Option GoError
  staticPodSpecForAuthenticatorErr : Option GoError
  uploadErr : Option GoError
deriving DecidableEq, Repr

/-- The phases of Config.Create in source order, each with its outcome and
the wrap text of the fmt.Errorf that would report its failure (the two
authenticator phases share one text in the source, and the upload wrap
text carries no comma, exactly as written). -/
def createSequence (env : CreateEnv) : List (CreateStep × Option GoError × String) :=
  [(CreateStep.ensureBucket, Config.ensureBucket env.createBucketErr, "ensuring S3 bucket, "),
   (CreateStep.generateCerts, env.generateCertsErr, "generating certs, "),
   (CreateStep.kubeConfigs, env.kubeConfigsErr, "generating kube config, "),
   (CreateStep.staticPodManifests, env.staticPodManifestsErr, "generating manifests, "),
   (CreateStep.kubeletSystemService, env.kubeletSystemServiceErr,
    "generating kubelet service config, "),
   (CreateStep.ensureAuthenticatorConfig, env.ensureAuthenticatorConfigErr,
    "generating authenticator config, "),
   (CreateStep.staticPodSpecForAuthenticator, env.staticPodSpecForAuthenticatorErr,
    "generating authenticator config, "),
   (CreateStep.upload, env.uploadErr, "uploading to S3 ")]

/-- Run the phases in order: each phase is attempted only when every phase
before it succeeded; the first failing phase aborts the run with its error
wrapped, so no later phase runs. -/
def runSteps : List (CreateStep × Option GoError × String) → List CreateStep × Option GoError
  | [] => ([], none)
  | (st, res, w) :: rest =>
    match res with
    | some e => ([st], some (GoError.wrap w e))
    | none =>
      let out := runSteps rest
      (st :: out.1, out.2)

/-- The outcome of one Config.Create call: the returned reconcile.Result
and error, the substrate as left by the call (Create mutates its status in
place), and the phases that actually ran, in order. -/
structure CreateOut where
  result : ReconcileResult
  err : Option GoError
  substrate : Substrate
  steps : List CreateStep
deriving DecidableEq, Repr

/-- The substrate with Status.Cluster.KubeConfig set to the local path of
the generated kubeconfig, as the last line of the successful Create does. -/
def withKubeConfigSet (s : Substrate) : Substrate :=
  { s with status := { s.status with cluster :=
      { s.status.cluster with kubeConfig := some (kubeConfigLocalPath s) } } }

/-- Config.Create: when Status.Cluster.Address is nil it returns
Requeue=true with no error at once, before any phase runs; otherwise it
runs the phases in order, aborting on the first failure with the wrapped
error and an empty result; after the upload succeeds it records the
kubeconfig location in Status.Cluster.KubeConfig and returns success. -/
def Config.Create (env : CreateEnv) (substrate : Substrate) : CreateOut :=
  match substrate.status.cluster.address with
  | none => ⟨⟨true⟩, none, substrate, []⟩
  | some _ =>
    let out := runSteps (createSequence env)
    match out.2 with
    | some e => ⟨⟨false⟩, some e, substrate, out.1⟩
    | none => ⟨⟨false⟩, none, withKubeConfigSet substrate, out.1⟩

/-- C5: whenever the load-balancer address is not yet assigned
(Status.Cluster.Address is nil), Config.Create returns Requeue=true with
no error, leaves the substrate untouched and runs no phase at all: no
bucket is ensured, no file generated, nothing uploaded. -/
theorem Config_Create_not_ready (env : CreateEnv) (s : Substrate)
    (h : s.status.cluster.address = none) :
    Config.Create env s = ⟨⟨true⟩, none, s, []⟩ := by
  simp [Config.Create, h]

/-- An environment in which every external call would succeed. -/
def envDemo : CreateEnv := ⟨none, none, none, none, none, none, none, none⟩

/-- A substrate whose load-balancer address is not yet assigned. -/
def subDemo : Substrate := ⟨"test-substrate", ⟨⟨none, none⟩⟩⟩

/-- C5 witness: on a concrete substrate with no address, Create requeues
with no error, changes nothing and performs no phase. -/
theorem Config_Create_not_ready_witness :
    Config.Create envDemo subDemo = ⟨⟨true⟩, none, subDemo, []⟩ :=
  Config_Create_not_ready envDemo subDemo rfl

/-- When no phase fails, the phases that ran are exactly all of them, in
order. -/
theorem runSteps_all_ok :
    ∀ l : List (CreateStep × Option GoError × String),
      (runSteps l).2 = none → (runSteps l).1 = l.map Prod.fst := by
  intro l
  induction l with
  | nil => intro _; rfl
  | cons hd rest ih =>
    obtain ⟨st, res, w⟩ := hd
    cases res with
    | some e => intro hcontra; simp [runSteps] at hcontra
    | none =>
      intro hnone
      simp only [runSteps] at hnone ⊢
      simp [ih hnone]

/-- C9: Config.Create writes Status.Cluster.KubeConfig exactly on the
fully successful path — the returned substrate equals the input with the
kubeconfig location recorded when the call returns no error and no
requeue, and equals the unchanged input on the not-ready requeue return
and on every error return; the address status field is never written, and
the successful path has run the upload phase before the write. -/
theorem Config_Create_status_frame (env : CreateEnv) (s : Substrate) :
    (Config.Create env s).substrate =
      (if (Config.Create env s).err = none ∧ (Config.Create env s).result.requeue = false
       then withKubeConfigSet s else s) ∧
    (Config.Create env s).substrate.status.cluster.address = s.status.cluster.address ∧
    ((Config.Create env s).err = none ∧ (Config.Create env s).result.requeue = false →
      CreateStep.upload ∈ (Config.Create env s).steps) := by
  cases haddr : s.status.cluster.address with
  | none => simp [Config.Create, haddr]
  | some a =>
    cases hout : (runSteps (createSequence env)).2 with
    | some e => simp [Config.Create, haddr, hout]
    | none =>
      refine ⟨?_, ?_, ?_⟩
      · simp [Config.Create, haddr, hout]
      · simp [Config.Create, haddr, hout, withKubeConfigSet]
      · intro _
        simp only [Config.Create, haddr, hout]
        rw [runSteps_all_ok (createSequence env) hout]
        simp [createSequence]

/-- Whether a character list begins with the pattern. -/
def listStarts : List Char → List Char → Bool
  | [], _ => true
  | _ :: _, [] => false
  | p :: ps, c :: cs => p == c && listStarts ps cs

/-- Whether a character list has the pattern somewhere inside it. -/
def listHas (pat : List Char) : List Char → Bool
  | [] => pat.isEmpty
  | c :: cs => listStarts pat (c :: cs) || listHas pat cs

/-- strings.Contains of the Go standard library: whether pat occurs inside
s. -/
def strContains (s pat : String) : Bool := listHas pat.toList s.toList

/-- A list begins with itself, whatever follows. -/
theorem listStarts_self_append (p r : List Char) : listStarts p (p ++ r) = true := by
  induction p with
  | nil => rfl
  | cons a as ih => simp [listStarts, ih]

/-- A list that begins with the pattern has the pattern inside it. -/
theorem listHas_self_append (p r : List Char) : listHas p (p ++ r) = true := by
  cases p with
  | nil =>
    cases r with
    | nil => rfl
    | cons c cs => simp [listHas, listStarts]
  | cons a as =>
    have h := listStarts_self_append (a :: as) r
    simp only [List.cons_append] at h
    simp [listHas, h]

/-- An awserr whose code is the pattern has the pattern inside its Error()
string. -/
theorem strContains_of_code (e : AwsErr) (pat : String) (h : e.code = pat) :
    strContains e.errorString pat = true := by
  have hsplit : e.errorString.toList = pat.toList ++ (": " ++ e.message).toList := by
    rw [AwsErr.errorString, h]
    simp [String.toList]
  rw [strContains, hsplit]
  exact listHas_self_append pat.toList (": " ++ e.message).toList

/-- The teardown phases of Config.Delete, in source order. -/
inductive DeleteStep where
  | deleteObjects
  | deleteBucket
  | removeAllLocal
deriving DecidableEq, Repr

/-- Outcomes of the external calls Config.Delete makes: the batch delete
of the contained objects, the bucket deletion, and the removal of the
local staging directory (none = success). -/
structure DeleteEnv where
  batchDeleteErr : Option AwsErr
  deleteBucketErr : Option AwsErr
  removeAllErr : Option GoError
deriving DecidableEq, Repr

/-- The outcome of one Config.Delete call: returned result and error plus
the teardown phases that actually ran, in order. -/
structure DeleteOut where
  result : ReconcileResult
  err : Option GoError
  steps : List DeleteStep
deriving DecidableEq, Repr

/-- The last statement of Config.Delete: remove the local staging
directory and return its outcome; all three phases have run. -/
def Config.deleteLocalPhase (env : DeleteEnv) : DeleteOut :=
  ⟨⟨false⟩, env.removeAllErr,
   [DeleteStep.deleteObjects, DeleteStep.deleteBucket, DeleteStep.removeAllLocal]⟩

/-- The DeleteBucketWithContext step of Config.Delete: an error whose code
is not ErrCodeNoSuchBucket aborts, wrapped as "deleting S3, %w"; a
NoSuchBucket code (or success) falls through to the local removal. -/
def Config.deleteBucketPhase (env : DeleteEnv) : DeleteOut :=
  match env.deleteBucketErr with
  | some e =>
    if e.code ≠ "NoSuchBucket" then
      ⟨⟨false⟩, some (GoError.wrap "deleting S3, " (GoError.msg e.errorString)),
       [DeleteStep.deleteObjects, DeleteStep.deleteBucket]⟩
    else Config.deleteLocalPhase env
  | none => Config.deleteLocalPhase env

/-- Config.Delete: first batch-delete every object in the bucket — an
error whose Error() string does not contain "NoSuchBucket" aborts with the
non-wrapping message "deleting objects from bucket %v"; then delete the
bucket itself, then remove the local staging directory. -/
def Config.Delete (env : DeleteEnv) : DeleteOut :=
  match env.batchDeleteErr with
  | some e =>
    if ! strContains e.errorString "NoSuchBucket" then
      ⟨⟨false⟩, some (GoError.msg ("deleting objects from bucket " ++ e.errorString)),
       [DeleteStep.deleteObjects]⟩
    else Config.deleteBucketPhase env
  | none => Config.deleteBucketPhase env

/-- C7: Config.Delete tears down in the order contained objects, then the
bucket, then the local staging directory (the phase list is always a
prefix of that order); a NoSuchBucket outcome at either deletion step is
absorbed, so a bucket that was never created still yields the full
teardown ending in the local removal outcome; any other error at step one
aborts before the bucket deletion, any other error at step two aborts
before the local removal, and both abort errors are returned. -/
theorem Config_Delete_teardown (env : DeleteEnv) (e1 e2 f1 f2 : AwsErr)
    (hA1 : e1.code = "NoSuchBucket") (hA2 : e2.code = "NoSuchBucket")
    (hB : strContains f1.errorString "NoSuchBucket" = false)
    (hC : f2.code ≠ "NoSuchBucket") :
    ((Config.Delete env).steps = [DeleteStep.deleteObjects] ∨
     (Config.Delete env).steps = [DeleteStep.deleteObjects, DeleteStep.deleteBucket] ∨
     (Config.Delete env).steps =
       [DeleteStep.deleteObjects, DeleteStep.deleteBucket, DeleteStep.removeAllLocal]) ∧
    Config.Delete { env with batchDeleteErr := some e1, deleteBucketErr := some e2 } =
      ⟨⟨false⟩, env.removeAllErr,
       [DeleteStep.deleteObjects, DeleteStep.deleteBucket, DeleteStep.removeAllLocal]⟩ ∧
    Config.Delete { env with batchDeleteErr := some f1 } =
      ⟨⟨false⟩, some (GoError.msg ("deleting objects from bucket " ++ f1.errorString)),
       [DeleteStep.deleteObjects]⟩ ∧
    Config.Delete { env with batchDeleteErr := none, deleteBucketErr := some f2 } =
      ⟨⟨false⟩, some (GoError.wrap "deleting S3, " (GoError.msg f2.errorString)),
       [DeleteStep.deleteObjects, DeleteStep.deleteBucket]⟩ ∧
    Config.Delete { env with batchDeleteErr := none, deleteBucketErr := none } =
      ⟨⟨false⟩, env.removeAllErr,
       [DeleteStep.deleteObjects, DeleteStep.deleteBucket, DeleteStep.removeAllLocal]⟩ := by
  refine ⟨?_, ?_, ?_, ?_, ?_⟩
  · cases hb : env.batchDeleteErr with
    | none =>
      cases hdb : env.deleteBucketErr with
      | none =>
        simp [Config.Delete, Config.deleteBucketPhase, Config.deleteLocalPhase, hb, hdb]
      | some e =>
        by_cases hc : e.code = "NoSuchBucket" <;>
          simp [Config.Delete, Config.deleteBucketPhase, Config.deleteLocalPhase, hb, hdb, hc]
    | some e =>
      by_cases hs : strContains e.errorString "NoSuchBucket"
      · cases hdb : env.deleteBucketErr with
        | none =>
          simp [Config.Delete, Config.deleteBucketPhase, Config.deleteLocalPhase, hb, hdb, hs]
        | some e2x =>
          by_cases hc : e2x.code = "NoSuchBucket" <;>
            simp [Config.Delete, Config.deleteBucketPhase, Config.deleteLocalPhase,
              hb, hdb, hs, hc]
      · simp [Config.Delete, hb, Bool.eq_false_iff.mpr hs]
  · have hs1 := strContains_of_code e1 "NoSuchBucket" hA1
    simp [Config.Delete, Config.deleteBucketPhase, Config.deleteLocalPhase, hs1, hA2]
  · simp [Config.Delete, hB]
  · simp [Config.Delete, Config.deleteBucketPhase, hC]
  · simp [Config.Delete, Config.deleteBucketPhase, Config.deleteLocalPhase]

/-- The NoSuchBucket error of the never-created bucket example. -/
def noBucketErr : AwsErr := ⟨"NoSuchBucket", "the bucket does not exist"⟩

/-- The access-denied error of the abort examples. -/
def deniedErr : AwsErr := ⟨"AccessDenied", "not allowed"⟩

/-- The Delete environment of the witness: every external call would
succeed. -/
def delEnvDemo : DeleteEnv := ⟨none, none, none⟩

/-- C7 witness: on concrete environments, teardown order, NoSuchBucket
absorption at both steps and both abort points evaluate as stated. -/
theorem Config_Delete_teardown_witness :
    ((Config.Delete delEnvDemo).steps = [DeleteStep.deleteObjects] ∨
     (Config.Delete delEnvDemo).steps = [DeleteStep.deleteObjects, DeleteStep.deleteBucket] ∨
     (Config.Delete delEnvDemo).steps =
       [DeleteStep.deleteObjects, DeleteStep.deleteBucket, DeleteStep.removeAllLocal]) ∧
    Config.Delete { delEnvDemo with batchDeleteErr := some noBucketErr,
                                    deleteBucketErr := some noBucketErr } =
      ⟨⟨false⟩, delEnvDemo.removeAllErr,
       [DeleteStep.deleteObjects, DeleteStep.deleteBucket, DeleteStep.removeAllLocal]⟩ ∧
    Config.Delete { delEnvDemo with batchDeleteErr := some deniedErr } =
      ⟨⟨false⟩, some (GoError.msg ("deleting objects from bucket " ++ deniedErr.errorString)),
       [DeleteStep.deleteObjects]⟩ ∧
    Config.Delete { delEnvDemo with batchDeleteErr := none, deleteBucketErr := some deniedErr } =
      ⟨⟨false⟩, some (GoError.wrap "deleting S3, " (GoError.msg deniedErr.errorString)),
       [DeleteStep.deleteObjects, DeleteStep.deleteBucket]⟩ ∧
    Config.Delete { delEnvDemo with batchDeleteErr := none, deleteBucketErr := none } =
      ⟨⟨false⟩, delEnvDemo.removeAllErr,
       [DeleteStep.deleteObjects, DeleteStep.deleteBucket, DeleteStep.removeAllLocal]⟩ :=
  Config_Delete_teardown delEnvDemo noBucketErr noBucketErr deniedErr deniedErr
    (by decide) (by decide) (by decide) (by decide)

/-- Outcome of the Get call behind SecurityGroup.exists for one component:
the object is there, the store reports NotFound, or the Get itself fails. -/
inductive GetOutcome where
  | found
  | notFound
  | getErr (e : GoError)
deriving DecidableEq, Repr

/-- The SecurityGroup sub-controller of pkg/resource: the outcomes its
store client would report per component, for the existence Get and for the
Create of the kube object. -/
structure SecurityGroup where
  existsResult : String → GetOutcome
  createResult : String → Option GoError

/-- The lower-case create method (securitygroup.go:48-60): creates the
kube object for one component, wrapping a client failure as
"creating security group kube object, %w". -/
def SecurityGroup.create (s : SecurityGroup) (component : String) : Option GoError :=
  (s.createResult component).map (GoError.wrap "creating security group kube object, ")

/-- SecurityGroup.Create (securitygroup.go:31-45) over the supported
component list: per component, check existence; on NotFound create the
object (a create failure is wrapped once more with the same text, exactly
as the source does) and continue; when the object exists skip it; any
other Get error aborts wrapped as "getting security group object, %w".
Returns the error and the components actually created, in order. -/
def SecurityGroup.Create (s : SecurityGroup) : List String → Option GoError × List String
  | [] => (none, [])
  | c :: rest =>
    match s.existsResult c with
    | GetOutcome.found => SecurityGroup.Create s rest
    | GetOutcome.notFound =>
      match SecurityGroup.create s c with
      | some e => (some (GoError.wrap "creating security group kube object, " e), [])
      | none =>
        let out := SecurityGroup.Create s rest
        (out.1, c :: out.2)
    | GetOutcome.getErr e => (some (GoError.wrap "getting security group object, " e), [])

/-- Whether the existence check reports the component object absent. -/
def isAbsent (s : SecurityGroup) (c : String) : Bool :=
  match s.existsResult c with
  | GetOutcome.notFound => true
  | _ => false

/-- When every component either exists already or is absent with a
succeeding create, SecurityGroup.Create succeeds and creates exactly the
absent components. -/
theorem SecurityGroup_Create_all_ok (s : SecurityGroup) :
    ∀ comps : List String,
      (∀ c ∈ comps, s.existsResult c = GetOutcome.found ∨
        (s.existsResult c = GetOutcome.notFound ∧ s.createResult c = none)) →
      SecurityGroup.Create s comps = (none, comps.filter (isAbsent s)) := by
  intro comps
  induction comps with
  | nil => intro _; rfl
  | cons c rest ih =>
    intro hok
    have hrest := ih (fun x hx => hok x (List.mem_cons_of_mem c hx))
    rcases hok c (List.mem_cons_self c rest) with hf | ⟨hnf, hcr⟩
    · simp [SecurityGroup.Create, hf, hrest, List.filter_cons, isAbsent]
    · simp [SecurityGroup.Create, hnf, SecurityGroup.create, hcr, hrest,
        List.filter_cons, isAbsent]

/-- C6: a managed resource already existing under its deterministic name
is absorbed as success — Config.ensureBucket treats the
BucketAlreadyOwnedByYou code as success (and any other creation error is
wrapped and propagated), and SecurityGroup.Create skips every component
whose object exists, creating exactly the absent ones with no error when
those creations succeed; a creation failure propagates (wrapped twice with
the same text, as the source wraps in both create and its caller). -/
theorem EnsureCreate_adopts_existing (m : String) (e : AwsErr)
    (he : e.code ≠ "BucketAlreadyOwnedByYou")
    (s : SecurityGroup) (comps : List String)
    (hok : ∀ c ∈ comps, s.existsResult c = GetOutcome.found ∨
      (s.existsResult c = GetOutcome.notFound ∧ s.createResult c = none))
    (s2 : SecurityGroup) (c2 : String) (e2 : GoError)
    (h2a : s2.existsResult c2 = GetOutcome.notFound)
    (h2b : s2.createResult c2 = some e2) :
    Config.ensureBucket (some ⟨"BucketAlreadyOwnedByYou", m⟩) = none ∧
    Config.ensureBucket none = none ∧
    Config.ensureBucket (some e) =
      some (GoError.wrap "creating S3 bucket, " (GoError.msg e.errorString)) ∧
    SecurityGroup.Create s comps = (none, comps.filter (isAbsent s)) ∧
    SecurityGroup.Create s2 [c2] =
      (some (GoError.wrap "creating security group kube object, "
        (GoError.wrap "creating security group kube object, " e2)), []) := by
  refine ⟨by simp [Config.ensureBucket], rfl, by simp [Config.ensureBucket, he], ?_, ?_⟩
  · exact SecurityGroup_Create_all_ok s comps hok
  · simp [SecurityGroup.Create, h2a, SecurityGroup.create, h2b]

/-- A store in which the apiserver component object already exists and the
others are absent, with every creation succeeding. -/
def sgDemo : SecurityGroup :=
  ⟨fun c => if c = "apiserver" then GetOutcome.found else GetOutcome.notFound,
   fun _ => none⟩

/-- A store in which the component object is absent and its creation
fails. -/
def sgFailDemo : SecurityGroup :=
  ⟨fun _ => GetOutcome.notFound, fun _ => some (GoError.msg "boom")⟩

/-- C6 witness: with the apiserver object already present, Create succeeds
and creates exactly the two absent components; the already-owned bucket
code is absorbed; a distinct creation error propagates. -/
theorem EnsureCreate_adopts_existing_witness :
    Config.ensureBucket (some ⟨"BucketAlreadyOwnedByYou", "owned"⟩) = none ∧
    Config.ensureBucket none = none ∧
    Config.ensureBucket (some deniedErr) =
      some (GoError.wrap "creating S3 bucket, " (GoError.msg deniedErr.errorString)) ∧
    SecurityGroup.Create sgDemo ["etcd", "apiserver", "kubelet"] =
      (none, ["etcd", "apiserver", "kubelet"].filter (isAbsent sgDemo)) ∧
    SecurityGroup.Create sgFailDemo ["etcd"] =
      (some (GoError.wrap "creating security group kube object, "
        (GoError.wrap "creating security group kube object, " (GoError.msg "boom"))), []) :=
  EnsureCreate_adopts_existing "owned" deniedErr (by decide)
    sgDemo ["etcd", "apiserver", "kubelet"] (by decide)
    sgFailDemo "etcd" (GoError.msg "boom") (by decide) (by decide)

/-- One load-balancer ingress entry of the endpoint service status. -/
structure LoadBalancerIngress where
  hostname : String
deriving DecidableEq, Repr

/-- Outcome of the client Get for the endpoint service: the service with
its ingress list, a NotFound, or another client failure. -/
inductive GetServiceResult where
  | ok (ingress : List LoadBalancerIngress)
  | notFound
  | failed (e : GoError)
deriving DecidableEq, Repr

/-- GetClusterEndpoint (endpoint.go:59-71): a NotFound from the Get is
reported as "getting control plane endpoint, %w" wrapping the
WaitingForSubResources sentinel; any other Get failure as
"getting cluster endpoint, %w" wrapping that failure; with the service at
hand, a non-empty ingress list yields the hostname of its first entry and
no error, and an empty one yields "endpoint name, %w" wrapping the
sentinel. -/
def GetClusterEndpoint (getRes : GetServiceResult) : String × Option GoError :=
  match getRes with
  | GetServiceResult.notFound =>
    ("", some (GoError.wrap "getting control plane endpoint, " GoError.waitingForSubResources))
  | GetServiceResult.failed e =>
    ("", some (GoError.wrap "getting cluster endpoint, " e))
  | GetServiceResult.ok ingress =>
    match ingress with
    | i :: _ => (i.hostname, none)
    | [] => ("", some (GoError.wrap "endpoint name, " GoError.waitingForSubResources))

/-- Whether a Go error is, or wraps (at any depth), the
WaitingForSubResources sentinel — the errors.Is test. -/
def GoError.hasWaiting : GoError → Bool
  | GoError.waitingForSubResources => true
  | GoError.wrap _ inner => GoError.hasWaiting inner
  | GoError.msg _ => false

/-- C8: GetClusterEndpoint returns the hostname of the first ingress entry
with no error whenever the endpoint service is found with a non-empty
ingress list; when the service is not found, or it is found with an empty
ingress list, it returns an empty string and an error wrapping the
WaitingForSubResources sentinel; a distinct Get failure is returned
wrapped without the sentinel. -/
theorem GetClusterEndpoint_ready_gate (i : LoadBalancerIngress)
    (rest : List LoadBalancerIngress) (m : String) :
    GetClusterEndpoint (GetServiceResult.ok (i :: rest)) = (i.hostname, none) ∧
    GetClusterEndpoint (GetServiceResult.ok []) =
      ("", some (GoError.wrap "endpoint name, " GoError.waitingForSubResources)) ∧
    GetClusterEndpoint GetServiceResult.notFound =
      ("", some (GoError.wrap "getting control plane endpoint, "
        GoError.waitingForSubResources)) ∧
    (GetClusterEndpoint (GetServiceResult.ok [])).2.map GoError.hasWaiting = some true ∧
    (GetClusterEndpoint GetServiceResult.notFound).2.map GoError.hasWaiting = some true ∧
    GetClusterEndpoint (GetServiceResult.failed (GoError.msg m)) =
      ("", some (GoError.wrap "getting cluster endpoint, " (GoError.msg m))) ∧
    (GetClusterEndpoint (GetServiceResult.failed (GoError.msg m))).2.map GoError.hasWaiting =
      some false := by
  refine ⟨rfl, rfl, rfl, rfl, rfl, rfl, rfl⟩
